import Mathlib

set_option maxRecDepth 8000

/-!
Shallow embedding of the ECO2 batch-automation core (`eco2auto`):
the path-pairing component (`Eco2Path`), the overwrite policy, the
per-item session workflow (`Eco2App.open` / `calculate` / `write_report`
/ `run`), the batch orchestration (`check_dst` / `batch_run` and the
`run` command of `app.py`), and theorems checking the design document's
properties against this embedding.

Paths are modelled as an absoluteness flag plus a list of components
(POSIX-style rendering for string lengths); the filesystem is modelled
as finite lists of directory and file paths.  UI interaction is
modelled as a trace of driver actions, so "fails before any UI work"
is a statement about the produced trace.
-/

/-- Position (from the front) of the first '.' in a list of characters;
helper for Python's `str.rfind('.')` applied to a reversed name. -/
def findDotRev : List Char → Option Nat
  | [] => none
  | c :: cs => if c = '.' then some 0 else (findDotRev cs).map (fun j => j + 1)

/-- Index of the last '.' in a list of characters (Python `name.rfind('.')`,
returning `none` instead of -1 when there is no dot). -/
def lastDotIdx (cs : List Char) : Option Nat :=
  (findDotRev cs.reverse).map (fun j => cs.length - 1 - j)

/-- Python `pathlib.PurePath.suffix` on a file name: `name[i:]` for
`i = name.rfind('.')` when `0 < i < len(name) - 1`, else the empty string. -/
def nameSuffix (name : String) : String :=
  match lastDotIdx name.data with
  | none => ""
  | some i =>
    if 0 < i ∧ i < name.data.length - 1 then String.mk (name.data.drop i) else ""

/-- Python `pathlib.PurePath.stem` on a file name: `name[:i]` for
`i = name.rfind('.')` when `0 < i < len(name) - 1`, else the whole name. -/
def nameStem (name : String) : String :=
  match lastDotIdx name.data with
  | none => name
  | some i =>
    if 0 < i ∧ i < name.data.length - 1 then String.mk (name.data.take i) else name

/-- ASCII lowercasing of one character (Python `str.lower` restricted to
the ASCII range, which is what the extension filtering uses). -/
def lowerChar (c : Char) : Char :=
  if 'A' ≤ c ∧ c ≤ 'Z' then Char.ofNat (c.toNat + 32) else c

/-- ASCII lowercasing of a string (Python `str.lower` on ASCII data). -/
def lowerStr (s : String) : String := String.mk (s.data.map lowerChar)

/-- A filesystem path: an absoluteness flag plus the list of components. -/
structure FsPath where
  absolute : Bool
  comps : List String
deriving DecidableEq

/-- `pathlib.PurePath.name`: the final component ("" for an empty path). -/
def FsPath.name (p : FsPath) : String := p.comps.getLastD ""

/-- `pathlib.PurePath.parent`: drop the final component. -/
def FsPath.parent (p : FsPath) : FsPath := ⟨p.absolute, p.comps.dropLast⟩

/-- `pathlib.PurePath.stem` of a path. -/
def FsPath.stem (p : FsPath) : String := nameStem p.name

/-- `pathlib.PurePath.suffix` of a path. -/
def FsPath.suffix (p : FsPath) : String := nameSuffix p.name

/-- The `/` operator on paths with a plain file name on the right. -/
def FsPath.child (p : FsPath) (n : String) : FsPath := ⟨p.absolute, p.comps ++ [n]⟩

/-- `pathlib.PurePath.with_suffix`: replace the suffix of the final
component by `suf` (new name is `stem + suf`).  `pathlib` raises on a
path without a name; the embedding returns the path unchanged there and
theorems that need a name assume one. -/
def FsPath.withSuffix (p : FsPath) (suf : String) : FsPath :=
  if p.comps.isEmpty then p
  else ⟨p.absolute, p.comps.dropLast ++ [nameStem p.name ++ suf]⟩

/-- `pathlib.PurePath.as_posix`: slash-separated rendering. -/
def FsPath.asPosix (p : FsPath) : String :=
  (if p.absolute then "/" else "") ++ String.intercalate "/" p.comps

/-- `pathlib.Path.absolute`: prepend the working directory when the path
is relative. -/
def FsPath.absolutize (cwd : List String) (p : FsPath) : FsPath :=
  if p.absolute then p else ⟨true, cwd ++ p.comps⟩

/-- `pathlib.PurePath.relative_to` an ancestor: drop the ancestor's
components (meaningful when the ancestor is a component-wise prefix). -/
def FsPath.relativeTo (p r : FsPath) : FsPath := ⟨false, p.comps.drop r.comps.length⟩

/-- Longest common component-wise prefix of two component lists. -/
def commonComps : List String → List String → List String
  | a :: as, b :: bs => if a = b then a :: commonComps as bs else []
  | _, _ => []

/-- `os.path.commonpath` on two paths of equal absoluteness: the longest
common component-wise prefix.  (`os.path.commonpath` raises when mixing
absolute and relative paths; callers in this embedding check
absoluteness first.) -/
def FsPath.commonRoot (s d : FsPath) : FsPath := ⟨s.absolute, commonComps s.comps d.comps⟩

/-- The filesystem: the sets (as lists) of existing directories and files. -/
structure FS where
  dirs : List FsPath
  files : List FsPath
deriving DecidableEq

/-- `Path.is_dir`. -/
def FS.isDir (fs : FS) (p : FsPath) : Bool := fs.dirs.contains p

/-- `Path.is_file`. -/
def FS.isFile (fs : FS) (p : FsPath) : Bool := fs.files.contains p

/-- `Path.exists`. -/
def FS.pathExists (fs : FS) (p : FsPath) : Bool := fs.isDir p || fs.isFile p

/-- Record that a file was written. -/
def FS.addFile (fs : FS) (p : FsPath) : FS :=
  ⟨fs.dirs, if fs.files.contains p then fs.files else fs.files ++ [p]⟩

/-- All directory entries of the filesystem. -/
def FS.entries (fs : FS) : List FsPath := fs.files ++ fs.dirs

/-- `p` is a direct child of directory `d`. -/
def FsPath.isChildOf (p d : FsPath) : Bool :=
  p.absolute == d.absolute && p.comps.length == d.comps.length + 1 &&
    p.comps.take d.comps.length == d.comps

/-- `p` lies strictly below directory `d` (any depth). -/
def FsPath.isUnder (p d : FsPath) : Bool :=
  p.absolute == d.absolute && d.comps.length < p.comps.length &&
    p.comps.take d.comps.length == d.comps

/-- `Path.glob('*')`: the direct entries of a directory. -/
def FS.glob1 (fs : FS) (d : FsPath) : List FsPath :=
  fs.entries.filter (fun p => p.isChildOf d)

deriving instance DecidableEq for Except

/-- The result-artifact suffix used by `Eco2Path.create`. -/
def xlsSuffix : String := ".xls"

/-- One work item of the batch: `Eco2Path` = (src, dst, root) from
`automate.py`. -/
structure Eco2Path where
  src : FsPath
  dst : FsPath
  root : Option FsPath
deriving DecidableEq

/-- `Eco2Path.relative(min_root_len)`: null the root when it is shorter
than `minRootLen` characters in posix rendering, otherwise re-root the
source and destination below it. -/
def Eco2Path.relative (p : Eco2Path) (minRootLen : Nat) : Eco2Path :=
  match p.root with
  | none => ⟨p.src, p.dst, none⟩
  | some r =>
    if r.asPosix.length < minRootLen then ⟨p.src, p.dst, none⟩
    else ⟨p.src.relativeTo r, p.dst.relativeTo r, some r⟩

/-- `Eco2Path.create(src, dst=None)`: the destination is the source with
suffix `.xls` and the root is the source's parent directory. -/
def Eco2Path.createOmitted (s : FsPath) : Eco2Path :=
  ⟨s, s.withSuffix xlsSuffix, some s.parent⟩

/-- The destination actually used by `Eco2Path.create(src, dst)` for an
explicit `dst`: a directory destination gets `{src.stem}.xls` appended,
any other path is used verbatim. -/
def finalDst (fs : FS) (s d0 : FsPath) : FsPath :=
  if fs.isDir d0 then d0.child (nameStem s.name ++ xlsSuffix) else d0

/-- `Eco2Path.create(src, dst)` for an explicit `dst` under equal
absoluteness (the case in which `os.path.commonpath` is defined). -/
def Eco2Path.createA (fs : FS) (s d0 : FsPath) : Eco2Path :=
  ⟨s, finalDst fs s d0, some (FsPath.commonRoot s (finalDst fs s d0))⟩

/-- `Eco2Path.create(src, dst)`: `none` models the `ValueError` that
`os.path.commonpath` raises when absolute and relative paths are mixed. -/
def Eco2Path.createE (fs : FS) (s : FsPath) (dst : Option FsPath) : Option Eco2Path :=
  match dst with
  | none => some (Eco2Path.createOmitted s)
  | some d0 =>
    if s.absolute = (finalDst fs s d0).absolute then some (Eco2Path.createA fs s d0)
    else none

/-- Errors of the automation core that the claims mention. -/
inductive RunError
  | notAbsolutePath (p : FsPath)
  | fileNotFound (p : FsPath)
  | fileExists (p : FsPath)
  | countMismatch
  | mixedAbsolute
deriving DecidableEq

/-- The destination argument of `Eco2Path.iter`: omitted, one path
(checked with `is_dir`), or an explicit sequence of paths. -/
inductive DstSpec
  | omitted
  | single (p : FsPath)
  | seq (ps : List FsPath)
deriving DecidableEq

/-- Pair sources with destinations positionally, as the strict
`zip(..., strict=True)` inside `Eco2Path.iter` does: a length mismatch
is the `ValueError` of the strict zip (`countMismatch`), a
mixed-absoluteness pair is the `ValueError` of `os.path.commonpath`
(`mixedAbsolute`), and the mix error of an earlier pair wins over a
later exhaustion, matching the lazy generator. -/
def pairUp (fs : FS) : List FsPath → List FsPath → Except RunError (List Eco2Path)
  | [], [] => Except.ok []
  | s :: ss, d :: ds =>
    match Eco2Path.createE fs s (some d) with
    | none => Except.error RunError.mixedAbsolute
    | some p => (pairUp fs ss ds).map (fun l => p :: l)
  | _, _ => Except.error RunError.countMismatch

/-- `Eco2Path.iter(src, dst)`: destination omitted or a single existing
directory is repeated for every source (non-strict), any other
destination is paired strictly. -/
def Eco2Path.iterPairs (fs : FS) (src : List FsPath) (dst : DstSpec) :
    Except RunError (List Eco2Path) :=
  match dst with
  | DstSpec.omitted => Except.ok (src.map Eco2Path.createOmitted)
  | DstSpec.single p =>
    if fs.isDir p then pairUp fs src (src.map (fun _ => p)) else pairUp fs src [p]
  | DstSpec.seq ps => pairUp fs src ps

/-- The three-valued overwrite policy. -/
inductive Overwrite
  | raise
  | overwrite
  | skip
deriving DecidableEq

/-- One UI-driver interaction, as performed by the pywinauto calls of
`Eco2App`. -/
inductive UIAction
  | setFocus
  | sendKeys (k : String)
  | setEditText (p : FsPath)
  | clickInput (title : String)
  | closeWindow (title : String)
deriving DecidableEq

/-- The externally-determined UI state: which of the optional dialogs of
the driven application are present, and whether the result-graph window
is already open. -/
structure UiState where
  saveProjectPrompt : Bool
  versionPrompt : Bool
  graphOpen : Bool
deriving DecidableEq

/-- The UI actions of a successful `Eco2App.open`. -/
def openActions (ui : UiState) (path : FsPath) : List UIAction :=
  [UIAction.setFocus, UIAction.sendKeys "^o", UIAction.setEditText path,
    UIAction.clickInput "열기(O)"]
  ++ (if ui.saveProjectPrompt then [UIAction.clickInput "아니요(N)"] else [])
  ++ (if ui.versionPrompt then [UIAction.clickInput "닫기"] else [])

/-- The UI actions of `Eco2App.calculate`. -/
def calculateActions (ui : UiState) : List UIAction :=
  (if ui.graphOpen then [UIAction.closeWindow "결과그래프"] else [])
  ++ [UIAction.setFocus, UIAction.clickInput "계산",
      UIAction.clickInput "요구량+소요량", UIAction.sendKeys "{ENTER}"]

/-- The UI actions of the export part of `Eco2App.write_report`. -/
def exportActions (ui : UiState) (path : FsPath) : List UIAction :=
  (if ui.graphOpen then [] else [UIAction.clickInput "계산결과그래프보기"])
  ++ [UIAction.setFocus, UIAction.clickInput "Export", UIAction.clickInput "Excel",
      UIAction.setEditText path, UIAction.clickInput "저장(S)"]

/-- `Eco2App.open(path)`: the non-absolute and missing-file checks come
before any UI-driver call, so both error cases produce an empty trace. -/
def Eco2App.openFile (fs : FS) (ui : UiState) (path : FsPath) :
    List UIAction × Option RunError :=
  if !path.absolute then ([], some (RunError.notAbsolutePath path))
  else if !fs.pathExists path then ([], some (RunError.fileNotFound path))
  else (openActions ui path, none)

/-- `Eco2App.write_report(path)`: the non-absolute check and the
`raise`-policy existence check come before any UI-driver call; the
save-confirmation dialog appears exactly when the destination exists,
and is answered according to the policy. -/
def Eco2App.writeReport (ov : Overwrite) (fs : FS) (ui : UiState) (path : FsPath) :
    List UIAction × Option RunError :=
  if !path.absolute then ([], some (RunError.notAbsolutePath path))
  else if ov = Overwrite.raise && fs.pathExists path then
    ([], some (RunError.fileExists path))
  else
    if fs.pathExists path then
      match ov with
      | Overwrite.raise => (exportActions ui path, some (RunError.fileExists path))
      | Overwrite.overwrite => (exportActions ui path ++ [UIAction.clickInput "예(Y)"], none)
      | Overwrite.skip => (exportActions ui path ++ [UIAction.clickInput "아니요(N)"], none)
    else (exportActions ui path, none)

/-- The absolutized destination of `Eco2App.run`:
`dst = (Path(dst) if dst else src.with_suffix('.xls')).absolute()`
(where `src` has already been absolutized). -/
def Eco2App.runItemDst (cwd : List String) (src : FsPath) : Option FsPath → FsPath
  | some d0 => FsPath.absolutize cwd d0
  | none => FsPath.absolutize cwd ((FsPath.absolutize cwd src).withSuffix xlsSuffix)

/-- `Eco2App.run(src, dst)`: absolutize both paths, skip entirely when
the policy is `skip` and the destination exists, otherwise open,
calculate and write the report; a successful export records the
destination file. -/
def Eco2App.runOne (ov : Overwrite) (cwd : List String) (fs : FS) (ui : UiState)
    (src : FsPath) (dst : Option FsPath) : FS × List UIAction × Option RunError :=
  if ov = Overwrite.skip && fs.pathExists (Eco2App.runItemDst cwd src dst) then
    (fs, [], none)
  else
    match Eco2App.openFile fs ui (FsPath.absolutize cwd src) with
    | (a1, some e) => (fs, a1, some e)
    | (a1, none) =>
      match Eco2App.writeReport ov fs ui (Eco2App.runItemDst cwd src dst) with
      | (a3, some e) => (fs, a1 ++ calculateActions ui ++ a3, some e)
      | (a3, none) =>
        (FS.addFile fs (Eco2App.runItemDst cwd src dst),
          a1 ++ calculateActions ui ++ a3, none)

/-- `Eco2App.check_dst(src, dst)`: only under policy `raise`, iterate the
full pairing and fail at the first destination that already exists. -/
def Eco2App.checkDst (ov : Overwrite) (fs : FS) (src : List FsPath) (dst : DstSpec) :
    Option RunError :=
  if ov ≠ Overwrite.raise then none
  else
    match Eco2Path.iterPairs fs src dst with
    | Except.error e => some e
    | Except.ok items =>
      match items.find? (fun p => fs.pathExists p.dst) with
      | some p => some (RunError.fileExists p.dst)
      | none => none

/-- The loop of `Eco2App.batch_run`: run each pair and yield it
afterwards; a failure aborts the batch, keeping the items yielded so
far (generator semantics). -/
def Eco2App.batchRunAux (ov : Overwrite) (cwd : List String) (ui : UiState) :
    List Eco2Path → FS → FS × List Eco2Path × List UIAction × Option RunError
  | [], fs => (fs, [], [], none)
  | p :: rest, fs =>
    match Eco2App.runOne ov cwd fs ui p.src (some p.dst) with
    | (fs1, acts, some e) => (fs1, [], acts, some e)
    | (fs1, acts, none) =>
      match Eco2App.batchRunAux ov cwd ui rest fs1 with
      | (fs2, ys, acts2, err) => (fs2, p :: ys, acts ++ acts2, err)

/-- `Eco2App.batch_run(src, dst)`: pair and run. -/
def Eco2App.batchRun (ov : Overwrite) (cwd : List String) (ui : UiState) (fs : FS)
    (src : List FsPath) (dst : DstSpec) :
    FS × List Eco2Path × List UIAction × Option RunError :=
  match Eco2Path.iterPairs fs src dst with
  | Except.error e => (fs, [], [], some e)
  | Except.ok items => Eco2App.batchRunAux ov cwd ui items fs

/-- `_source(path, suffix)` from `app.py`: a non-directory is yielded as
is; a directory yields its direct entries that are regular files whose
lowercased suffix is listed. -/
def sourceFiles (fs : FS) (path : FsPath) (suffix : List String) : List FsPath :=
  if !fs.isDir path then [path]
  else (fs.glob1 path).filter (fun p => fs.isFile p && decide (lowerStr p.suffix ∈ suffix))

/-- The extension normalization of the `run` command (`app.py` line 82):
prepend a dot when missing. -/
def normalizeExts (ext : List String) : List String :=
  ext.map (fun x => if x.startsWith "." then x else "." ++ x)

/-- Batch-level events of the `run` command, in order. -/
inductive AppEv
  | sessionCreated
  | ui (a : UIAction)
  | sessionClosed
deriving DecidableEq

/-- The destination argument of the `run` command as a `DstSpec`
(`destination : Path | None`). -/
def dstSpecOf (dst : Option FsPath) : DstSpec :=
  match dst with
  | none => DstSpec.omitted
  | some d => DstSpec.single d

/-- The `run` command of `app.py`: discover sources, and if any exist,
create the `Eco2App` session, run the pre-flight `check_dst`, then the
batch; the session is created before the pre-flight check runs. -/
def appRunCmd (ov : Overwrite) (cwd : List String) (ui : UiState) (fs : FS)
    (source : FsPath) (dst : Option FsPath) (ext : List String) :
    List AppEv × Option RunError :=
  if (sourceFiles fs source (normalizeExts ext)).isEmpty then ([], none)
  else
    match Eco2App.checkDst ov fs (sourceFiles fs source (normalizeExts ext))
        (dstSpecOf dst) with
    | some e => ([AppEv.sessionCreated], some e)
    | none =>
      match Eco2App.batchRun ov cwd ui fs (sourceFiles fs source (normalizeExts ext))
          (dstSpecOf dst) with
      | (_, _, acts, some e) => (AppEv.sessionCreated :: acts.map AppEv.ui, some e)
      | (_, _, acts, none) =>
        (AppEv.sessionCreated :: (acts.map AppEv.ui ++ [AppEv.sessionClosed]), none)

/-- Modelled from the spec: the `BatchRun state` tracked by the
BatchOrchestrator (`processedCount`, `sessionGeneration`) together with
the processed-count values at which a restart occurred.  The
restart-every-N-items policy is not part of the sources under `src/`
(the spec records a second workflow-evolution version of the
repository); it is modelled from the spec's words. -/
structure BatchState where
  processedCount : Nat
  sessionGeneration : Nat
  restarts : List Nat
deriving DecidableEq

/-- Modelled from the spec: the BatchOrchestrator loop.  Each remaining
item increments `processedCount`; if `restartEvery > 0` and
`processedCount` is a multiple of `restartEvery` after completing an
item, the Session is closed and a fresh one opened before the next item
(so no restart after the final item). -/
def orchestrateAux (restartEvery : Nat) : Nat → BatchState → BatchState
  | 0, st => st
  | m + 1, st =>
    if 0 < restartEvery ∧ (st.processedCount + 1) % restartEvery = 0 ∧ 0 < m then
      orchestrateAux restartEvery m
        ⟨st.processedCount + 1, st.sessionGeneration + 1,
          st.restarts ++ [st.processedCount + 1]⟩
    else
      orchestrateAux restartEvery m
        ⟨st.processedCount + 1, st.sessionGeneration, st.restarts⟩

/-- Modelled from the spec: a batch of `n` items run with restart policy
`restartEvery`, starting from a fresh first Session. -/
def orchestrate (restartEvery n : Nat) : BatchState :=
  orchestrateAux restartEvery n ⟨0, 1, []⟩

/-- Modelled from the spec: directory discovery with a `recursive` flag
("a `recursive` flag selects between full subtree traversal and
top-level-only listing", with the caller-supplied extension set).  The
flag is not part of `_source` under `src/`; it is modelled from the
spec's words, with the top-level-only branch shaped like `_source`. -/
def discover (fs : FS) (d : FsPath) (exts : List String) (recursive : Bool) :
    List FsPath :=
  if recursive then
    (fs.files.filter (fun p => p.isUnder d)).filter (fun p => decide (p.suffix ∈ exts))
  else
    (fs.glob1 d).filter (fun p => fs.isFile p && decide (p.suffix ∈ exts))

lemma absolutize_absolute (cwd : List String) (p : FsPath) :
    (FsPath.absolutize cwd p).absolute = true := by
  unfold FsPath.absolutize
  split <;> simp_all

lemma findDotRev_xls_rev (r : List Char) :
    findDotRev (['s', 'l', 'x', '.'] ++ r) = some 3 := by
  rw [List.cons_append, List.cons_append, List.cons_append, List.cons_append]
  rw [findDotRev, findDotRev, findDotRev, findDotRev]
  simp

lemma lastDotIdx_append_xls (cs : List Char) :
    lastDotIdx (cs ++ ['.', 'x', 'l', 's']) = some cs.length := by
  unfold lastDotIdx
  rw [List.reverse_append]
  have h4 : ['.', 'x', 'l', 's'].reverse = ['s', 'l', 'x', '.'] := by decide
  rw [h4, findDotRev_xls_rev]
  simp only [Option.map]
  congr 1
  simp only [List.length_append, List.length_cons, List.length_nil]
  omega

lemma nameSuffix_stem_xls (st : String) (h : st.data ≠ []) :
    nameSuffix (st ++ xlsSuffix) = xlsSuffix := by
  have hdata : (st ++ xlsSuffix).data = st.data ++ ['.', 'x', 'l', 's'] := by
    rw [String.data_append]; rfl
  unfold nameSuffix
  rw [hdata, lastDotIdx_append_xls]
  have hlen : 0 < st.data.length := List.length_pos.mpr h
  have hcond : 0 < st.data.length ∧
      st.data.length < (st.data ++ ['.', 'x', 'l', 's']).length - 1 := by
    constructor
    · exact hlen
    · simp only [List.length_append, List.length_cons, List.length_nil]
      omega
  dsimp only
  rw [if_pos hcond, List.drop_left]
  rfl

lemma nameStem_data_ne (nm : String) (h : nm.data ≠ []) : (nameStem nm).data ≠ [] := by
  unfold nameStem
  match hidx : lastDotIdx nm.data with
  | none => exact h
  | some i =>
    dsimp only
    by_cases hc : 0 < i ∧ i < nm.data.length - 1
    · rw [if_pos hc]
      intro hcontra
      have h2 : nm.data.take i = [] := hcontra
      have h3 := congrArg List.length h2
      rw [List.length_take] at h3
      simp only [List.length_nil] at h3
      have := List.length_pos.mpr h
      omega
    · rw [if_neg hc]; exact h

lemma orchestrateAux_mem (e : Nat) :
    ∀ (m : Nat) (st : BatchState) (k : Nat),
      k ∈ (orchestrateAux e m st).restarts ↔
        k ∈ st.restarts ∨
          (0 < e ∧ k % e = 0 ∧ st.processedCount < k ∧ k < st.processedCount + m) := by
  intro m
  induction m with
  | zero =>
    intro st k
    rw [orchestrateAux]
    constructor
    · exact fun hk => Or.inl hk
    · rintro (hk | ⟨_, _, h1, h2⟩)
      · exact hk
      · omega
  | succ m ih =>
    intro st k
    rw [orchestrateAux]
    by_cases hc : 0 < e ∧ (st.processedCount + 1) % e = 0 ∧ 0 < m
    · rw [if_pos hc, ih]
      dsimp only
      rw [List.mem_append, List.mem_singleton]
      constructor
      · rintro ((hk | hk) | ⟨he, hm, h1, h2⟩)
        · exact Or.inl hk
        · subst hk
          exact Or.inr ⟨hc.1, hc.2.1, by omega, by omega⟩
        · exact Or.inr ⟨he, hm, by omega, by omega⟩
      · rintro (hk | ⟨he, hm, h1, h2⟩)
        · exact Or.inl (Or.inl hk)
        · by_cases hk1 : k = st.processedCount + 1
          · exact Or.inl (Or.inr hk1)
          · exact Or.inr ⟨he, hm, by omega, by omega⟩
    · rw [if_neg hc, ih]
      dsimp only
      constructor
      · rintro (hk | ⟨he, hm, h1, h2⟩)
        · exact Or.inl hk
        · exact Or.inr ⟨he, hm, by omega, by omega⟩
      · rintro (hk | ⟨he, hm, h1, h2⟩)
        · exact Or.inl hk
        · by_cases hk1 : k = st.processedCount + 1
          · subst hk1
            have hm0 : ¬ 0 < m := fun h0m => hc ⟨he, hm, h0m⟩
            omega
          · exact Or.inr ⟨he, hm, by omega, by omega⟩

/-- Claim C1: under the spec's restart policy, a restart (close the
current Session, open a fresh one before the next item) happens exactly
after the items whose completion makes `processedCount` a positive
multiple of `restartEvery` while further items remain; in particular
with `restartEvery = 3` and 7 items the restarts are exactly after
items 3 and 6 (none after item 7), and with `restartEvery = 0` no
restart ever occurs. -/
theorem c1_restart_policy :
    (orchestrate 3 7).restarts = [3, 6]
    ∧ (∀ n : Nat, (orchestrate 0 n).restarts = [])
    ∧ (∀ e n k : Nat, 0 < e →
        (k ∈ (orchestrate e n).restarts ↔ k % e = 0 ∧ 0 < k ∧ k < n)) := by
  refine ⟨by decide, ?_, ?_⟩
  · intro n
    rw [List.eq_nil_iff_forall_not_mem]
    intro k
    rw [orchestrate, orchestrateAux_mem]
    rintro (hk | ⟨he, _, _, _⟩)
    · simp at hk
    · omega
  · intro e n k he
    rw [orchestrate, orchestrateAux_mem]
    dsimp only
    constructor
    · rintro (hk | ⟨_, hm, h1, h2⟩)
      · simp at hk
      · exact ⟨hm, by omega, by omega⟩
    · rintro ⟨hm, h1, h2⟩
      exact Or.inr ⟨he, hm, by omega, by omega⟩

theorem c1_restart_policy_witness :
    3 ∈ (orchestrate 3 7).restarts ↔ 3 % 3 = 0 ∧ 0 < 3 ∧ 3 < 7 :=
  c1_restart_policy.2.2 3 7 3 (by decide)

/-- Claim C8: under the spec's recursive flag, top-level-only discovery
returns only direct children of the directory (never a file from a
subdirectory), and recursive discovery returns exactly the regular
files anywhere below the directory whose suffix is listed. -/
theorem c8_recursive (fs : FS) (d : FsPath) (exts : List String) (p : FsPath) :
    (p ∈ discover fs d exts false → p.isChildOf d = true)
    ∧ (p ∈ discover fs d exts true ↔
        fs.isFile p = true ∧ p.isUnder d = true ∧ p.suffix ∈ exts) := by
  constructor
  · intro hp
    simp only [discover, Bool.false_eq_true, if_false, List.mem_filter, FS.glob1] at hp
    exact hp.1.2
  · simp only [discover, if_true, List.mem_filter, decide_eq_true_eq, FS.isFile]
    rw [List.elem_iff]
    tauto

theorem c8_recursive_witness :
    (⟨true, ["r", "s", "f.eco"]⟩ : FsPath) ∈
      discover ⟨[⟨true, ["r"]⟩, ⟨true, ["r", "s"]⟩], [⟨true, ["r", "s", "f.eco"]⟩]⟩
        ⟨true, ["r"]⟩ [".eco"] true :=
  (c8_recursive ⟨[⟨true, ["r"]⟩, ⟨true, ["r", "s"]⟩], [⟨true, ["r", "s", "f.eco"]⟩]⟩
    ⟨true, ["r"]⟩ [".eco"] ⟨true, ["r", "s", "f.eco"]⟩).2.mpr (by decide)

lemma runItemDst_absolute (cwd : List String) (src : FsPath) (dst : Option FsPath) :
    (Eco2App.runItemDst cwd src dst).absolute = true := by
  cases dst <;> exact absolutize_absolute cwd _

lemma openFile_no_notAbs (fs : FS) (ui : UiState) (p : FsPath) (q : FsPath)
    (h : p.absolute = true) :
    (Eco2App.openFile fs ui p).2 ≠ some (RunError.notAbsolutePath q) := by
  simp only [Eco2App.openFile, h, Bool.not_true, Bool.false_eq_true, if_false]
  split <;> simp

lemma writeReport_no_notAbs (ov : Overwrite) (fs : FS) (ui : UiState) (p : FsPath)
    (q : FsPath) (h : p.absolute = true) :
    (Eco2App.writeReport ov fs ui p).2 ≠ some (RunError.notAbsolutePath q) := by
  simp only [Eco2App.writeReport, h, Bool.not_true, Bool.false_eq_true, if_false]
  split
  · simp
  · split
    · cases ov <;> simp
    · simp

/-- Claim C9: `Eco2App.open` on a non-absolute path fails with the
non-absolute-path error, and on an absolute but non-existing path with
the file-not-found error, in both cases with an empty UI trace (no UI
driver call); `Eco2App.write_report` has the same non-absolute-path
fail-fast contract. -/
theorem c9_failfast (fs : FS) (ui : UiState) (p : FsPath) (ov : Overwrite) :
    (p.absolute = false →
      Eco2App.openFile fs ui p = ([], some (RunError.notAbsolutePath p)))
    ∧ (p.absolute = true → fs.pathExists p = false →
      Eco2App.openFile fs ui p = ([], some (RunError.fileNotFound p)))
    ∧ (p.absolute = false →
      Eco2App.writeReport ov fs ui p = ([], some (RunError.notAbsolutePath p))) := by
  refine ⟨?_, ?_, ?_⟩
  · intro h
    simp [Eco2App.openFile, h]
  · intro h1 h2
    simp [Eco2App.openFile, h1, h2]
  · intro h
    simp [Eco2App.writeReport, h]

theorem c9_failfast_witness :
    Eco2App.openFile ⟨[], []⟩ ⟨false, false, false⟩ ⟨false, ["rel.eco"]⟩ =
        ([], some (RunError.notAbsolutePath ⟨false, ["rel.eco"]⟩))
    ∧ Eco2App.openFile ⟨[], []⟩ ⟨false, false, false⟩ ⟨true, ["gone.eco"]⟩ =
        ([], some (RunError.fileNotFound ⟨true, ["gone.eco"]⟩))
    ∧ Eco2App.writeReport Overwrite.raise ⟨[], []⟩ ⟨false, false, false⟩
        ⟨false, ["rel.xls"]⟩ =
        ([], some (RunError.notAbsolutePath ⟨false, ["rel.xls"]⟩)) :=
  ⟨(c9_failfast ⟨[], []⟩ ⟨false, false, false⟩ ⟨false, ["rel.eco"]⟩ Overwrite.raise).1 rfl,
   (c9_failfast ⟨[], []⟩ ⟨false, false, false⟩ ⟨true, ["gone.eco"]⟩ Overwrite.raise).2.1
      rfl (by decide),
   (c9_failfast ⟨[], []⟩ ⟨false, false, false⟩ ⟨false, ["rel.xls"]⟩ Overwrite.raise).2.2 rfl⟩

/-- Claim C10: `Eco2App.run` absolutizes its source and destination
before any check or workflow step, so it can never produce the
non-absolute-path error for any input; that error arises from a direct
`open` or `write_report` call exactly when the path passed is not
absolute. -/
theorem c10_run_absolute (ov : Overwrite) (cwd : List String) (fs : FS) (ui : UiState)
    (src : FsPath) (dst : Option FsPath) (q r : FsPath) :
    (Eco2App.runOne ov cwd fs ui src dst).2.2 ≠ some (RunError.notAbsolutePath q)
    ∧ ((Eco2App.openFile fs ui r).2 = some (RunError.notAbsolutePath r) ↔
        r.absolute = false)
    ∧ ((Eco2App.writeReport ov fs ui r).2 = some (RunError.notAbsolutePath r) ↔
        r.absolute = false) := by
  refine ⟨?_, ?_, ?_⟩
  · unfold Eco2App.runOne
    split
    · simp
    · split
      · rename_i a1 e heq
        have h2 := openFile_no_notAbs fs ui (FsPath.absolutize cwd src) q
          (absolutize_absolute cwd src)
        rw [heq] at h2
        simpa using h2
      · split
        · rename_i a1 heq1 a3 e heq
          have h2 := writeReport_no_notAbs ov fs ui (Eco2App.runItemDst cwd src dst) q
            (runItemDst_absolute cwd src dst)
          rw [heq] at h2
          simpa using h2
        · simp
  · cases hr : r.absolute
    · simp [Eco2App.openFile, hr]
    · simp only [Eco2App.openFile, hr, Bool.not_true, Bool.false_eq_true, if_false]
      split <;> simp
  · cases hr : r.absolute
    · simp [Eco2App.writeReport, hr]
    · simp only [Eco2App.writeReport, hr, Bool.not_true, Bool.false_eq_true, if_false]
      split
      · simp
      · split
        · cases ov <;> simp
        · simp

theorem c10_run_absolute_witness :
    (Eco2App.runOne Overwrite.raise ["cwd"] ⟨[], [⟨true, ["cwd", "a.eco"]⟩]⟩
        ⟨false, false, false⟩ ⟨false, ["a.eco"]⟩ none).2.2 ≠
      some (RunError.notAbsolutePath ⟨false, ["a.eco"]⟩) :=
  (c10_run_absolute Overwrite.raise ["cwd"] ⟨[], [⟨true, ["cwd", "a.eco"]⟩]⟩
    ⟨false, false, false⟩ ⟨false, ["a.eco"]⟩ none ⟨false, ["a.eco"]⟩
    ⟨false, ["a.eco"]⟩).1

def c2fs : FS := ⟨[], [⟨true, ["a.eco"]⟩, ⟨true, ["a.xls"]⟩]⟩

def c2item : Eco2Path := ⟨⟨true, ["a.eco"]⟩, ⟨true, ["a.xls"]⟩, none⟩

/-- Claim C2, counterexample: under policy `skip` with the one item's
destination already existing, `batch_run` performs no UI work but still
yields the item, so the item is NOT excluded from the completed-case
output handed to the report builder, contrary to the claim. -/
theorem c2_skip_counterexample :
    FS.pathExists c2fs c2item.dst = true
    ∧ Eco2App.batchRunAux Overwrite.skip [] ⟨false, false, false⟩ [c2item] c2fs =
        (c2fs, [c2item], [], none)
    ∧ c2item ∈
        (Eco2App.batchRunAux Overwrite.skip [] ⟨false, false, false⟩ [c2item] c2fs).2.1 :=
  ⟨by decide, by decide, by decide⟩

/-- Claim C2 (amended): under policy `skip`, an item whose destination
already exists when it is reached is not run — no UI action, no
filesystem change — but it is still yielded to the completed-case
output, in front of whatever the rest of the batch produces. -/
theorem c2_skip_amended (cwd : List String) (ui : UiState) (fs : FS) (p : Eco2Path)
    (rest : List Eco2Path)
    (h : fs.pathExists (Eco2App.runItemDst cwd p.src (some p.dst)) = true) :
    Eco2App.batchRunAux Overwrite.skip cwd ui (p :: rest) fs =
      ((Eco2App.batchRunAux Overwrite.skip cwd ui rest fs).1,
       p :: (Eco2App.batchRunAux Overwrite.skip cwd ui rest fs).2.1,
       (Eco2App.batchRunAux Overwrite.skip cwd ui rest fs).2.2.1,
       (Eco2App.batchRunAux Overwrite.skip cwd ui rest fs).2.2.2) := by
  have hrun : Eco2App.runOne Overwrite.skip cwd fs ui p.src (some p.dst) =
      (fs, [], none) := by
    unfold Eco2App.runOne
    simp [h]
  rw [Eco2App.batchRunAux, hrun]
  rfl

theorem c2_skip_amended_witness :
    Eco2App.batchRunAux Overwrite.skip [] ⟨false, false, false⟩ [c2item] c2fs =
      ((Eco2App.batchRunAux Overwrite.skip [] ⟨false, false, false⟩ [] c2fs).1,
       c2item :: (Eco2App.batchRunAux Overwrite.skip [] ⟨false, false, false⟩ [] c2fs).2.1,
       (Eco2App.batchRunAux Overwrite.skip [] ⟨false, false, false⟩ [] c2fs).2.2.1,
       (Eco2App.batchRunAux Overwrite.skip [] ⟨false, false, false⟩ [] c2fs).2.2.2) :=
  c2_skip_amended [] ⟨false, false, false⟩ c2fs c2item [] (by decide)

def c3fs : FS := ⟨[], [⟨true, ["case1.eco"]⟩, ⟨true, ["case1.xls"]⟩]⟩

def c3src : FsPath := ⟨true, ["case1.eco"]⟩

def c3dst : FsPath := ⟨true, ["case1.xls"]⟩

/-- Claim C3, counterexample: under policy `raise` with an existing
destination, the `run` command fails the batch with a
destination-exists error, but the trace already contains the Session
creation — the `Eco2App` session is created (line 88 of `app.py`)
before `check_dst` runs (line 89), contrary to "before any Session is
created". -/
theorem c3_preflight_counterexample :
    appRunCmd Overwrite.raise [] ⟨false, false, false⟩ c3fs c3src none [".eco"] =
      ([AppEv.sessionCreated], some (RunError.fileExists c3dst))
    ∧ AppEv.sessionCreated ∈
        (appRunCmd Overwrite.raise [] ⟨false, false, false⟩ c3fs c3src none [".eco"]).1 :=
  ⟨by decide, by decide⟩

lemma find?_some_of_exists {α : Type} (p : α → Bool) :
    ∀ l : List α, (∃ x ∈ l, p x = true) → ∃ y, l.find? p = some y := by
  intro l
  induction l with
  | nil => intro h; simp at h
  | cons a l ih =>
    intro h
    by_cases hpa : p a = true
    · exact ⟨a, List.find?_cons_of_pos l hpa⟩
    · obtain ⟨x, hx, hpx⟩ := h
      rcases List.mem_cons.mp hx with rfl | hxl
      · exact absurd hpx hpa
      · obtain ⟨y, hy⟩ := ih ⟨x, hxl, hpx⟩
        exact ⟨y, by rw [List.find?_cons_of_neg l hpa]; exact hy⟩

/-- Claim C3 (amended): under policy `raise`, when any paired
destination already exists, the `run` command fails the whole batch
with a destination-exists error after creating the Session but before
any item is processed — the trace is exactly the Session creation, with
no per-item UI work and no yielded item. -/
theorem c3_preflight_amended (cwd : List String) (ui : UiState) (fs : FS)
    (source : FsPath) (dst : Option FsPath) (ext : List String) (items : List Eco2Path)
    (hne : (sourceFiles fs source (normalizeExts ext)).isEmpty = false)
    (hit : Eco2Path.iterPairs fs (sourceFiles fs source (normalizeExts ext))
      (dstSpecOf dst) = Except.ok items)
    (hex : ∃ p ∈ items, fs.pathExists p.dst = true) :
    ∃ q, appRunCmd Overwrite.raise cwd ui fs source dst ext =
      ([AppEv.sessionCreated], some (RunError.fileExists q)) := by
  obtain ⟨y, hy⟩ := find?_some_of_exists (fun p => fs.pathExists p.dst) items hex
  refine ⟨y.dst, ?_⟩
  have hcd : Eco2App.checkDst Overwrite.raise fs
      (sourceFiles fs source (normalizeExts ext)) (dstSpecOf dst) =
      some (RunError.fileExists y.dst) := by
    unfold Eco2App.checkDst
    rw [if_neg (by simp), hit]
    dsimp only
    rw [hy]
  unfold appRunCmd
  rw [hne, hcd]
  rfl

theorem c3_preflight_amended_witness :
    ∃ q, appRunCmd Overwrite.raise [] ⟨false, false, false⟩ c3fs c3src none [".eco"] =
      ([AppEv.sessionCreated], some (RunError.fileExists q)) :=
  c3_preflight_amended [] ⟨false, false, false⟩ c3fs c3src none [".eco"]
    [Eco2Path.createOmitted c3src] (by decide) (by decide)
    ⟨Eco2Path.createOmitted c3src, by decide, by decide⟩

lemma string_data_ne_of_ne (s : String) (h : s ≠ "") : s.data ≠ [] := by
  intro hd
  exact h (by cases s; simp_all)

lemma suffix_append_stem_xls (a : Bool) (l : List String) (nm : String)
    (h : (nameStem nm).data ≠ []) :
    FsPath.suffix ⟨a, l ++ [nameStem nm ++ xlsSuffix]⟩ = xlsSuffix := by
  unfold FsPath.suffix FsPath.name
  rw [List.getLastD_concat]
  exact nameSuffix_stem_xls (nameStem nm) h

lemma finalDst_absolute (fs : FS) (s d0 : FsPath) :
    (finalDst fs s d0).absolute = d0.absolute := by
  unfold finalDst
  split <;> rfl

lemma createE_eq_createA (fs : FS) (s d0 : FsPath) (h : s.absolute = d0.absolute) :
    Eco2Path.createE fs s (some d0) = some (Eco2Path.createA fs s d0) := by
  unfold Eco2Path.createE
  dsimp only
  rw [if_pos]
  rw [finalDst_absolute]
  exact h

def c4fs : FS := ⟨[], []⟩

def c4src : FsPath := ⟨true, ["in", "a.eco"]⟩

def c4dst : FsPath := ⟨true, ["out", "r.csv"]⟩

/-- Claim C4, counterexample: a WorkItem produced by PathPairing from an
explicit destination sequence keeps the explicit path verbatim — its
extension stays `.csv`, not the report-artifact `.xls`, contrary to the
claim that every WorkItem's destination extension is fixed to `.xls`. -/
theorem c4_extension_counterexample :
    Eco2Path.iterPairs c4fs [c4src] (DstSpec.seq [c4dst]) =
      Except.ok [⟨c4src, c4dst, some ⟨true, []⟩⟩]
    ∧ FsPath.suffix ((⟨c4src, c4dst, some ⟨true, []⟩⟩ : Eco2Path).dst) = ".csv"
    ∧ (".csv" : String) ≠ xlsSuffix :=
  ⟨by decide, by decide, by decide⟩

/-- Claim C4 (amended): a WorkItem's destination has extension `.xls`
when the destination specification is omitted or is a directory; an
explicit destination path is used verbatim, its extension unchanged. -/
theorem c4_extension_amended (fs : FS) (s d0 : FsPath)
    (hn : s.name ≠ "") (hc : s.comps ≠ []) (habs : s.absolute = d0.absolute) :
    FsPath.suffix (Eco2Path.createOmitted s).dst = xlsSuffix
    ∧ (fs.isDir d0 = true →
        ∃ p, Eco2Path.createE fs s (some d0) = some p ∧ FsPath.suffix p.dst = xlsSuffix)
    ∧ (fs.isDir d0 = false →
        ∃ p, Eco2Path.createE fs s (some d0) = some p ∧ p.dst = d0) := by
  have hstem : (nameStem s.name).data ≠ [] :=
    nameStem_data_ne s.name (string_data_ne_of_ne s.name hn)
  refine ⟨?_, ?_, ?_⟩
  · unfold Eco2Path.createOmitted FsPath.withSuffix
    rw [if_neg (by simpa using hc)]
    exact suffix_append_stem_xls s.absolute s.comps.dropLast s.name hstem
  · intro hdir
    refine ⟨Eco2Path.createA fs s d0, createE_eq_createA fs s d0 habs, ?_⟩
    unfold Eco2Path.createA finalDst
    rw [hdir]
    dsimp only
    unfold FsPath.child
    exact suffix_append_stem_xls d0.absolute d0.comps s.name hstem
  · intro hdir
    refine ⟨Eco2Path.createA fs s d0, createE_eq_createA fs s d0 habs, ?_⟩
    unfold Eco2Path.createA finalDst
    rw [hdir]
    rfl

theorem c4_extension_amended_witness :
    FsPath.suffix (Eco2Path.createOmitted c4src).dst = xlsSuffix :=
  (c4_extension_amended c4fs c4src c4dst (by decide) (by decide) (by decide)).1

lemma zipWith_const {α β γ : Type} (f : α → β → γ) (b : β) :
    ∀ l : List α, List.zipWith f l (l.map (fun _ => b)) = l.map (fun x => f x b) := by
  intro l
  induction l with
  | nil => rfl
  | cons x l ih =>
    show f x b :: List.zipWith f l (l.map (fun _ => b)) = f x b :: l.map (fun y => f y b)
    rw [ih]

lemma pairUp_eq_abs (fs : FS) (a : Bool) :
    ∀ ss ds : List FsPath, (∀ x ∈ ss, x.absolute = a) → (∀ x ∈ ds, x.absolute = a) →
      pairUp fs ss ds =
        if ss.length = ds.length
        then Except.ok (List.zipWith (Eco2Path.createA fs) ss ds)
        else Except.error RunError.countMismatch := by
  intro ss
  induction ss with
  | nil =>
    intro ds _ _
    cases ds with
    | nil => rfl
    | cons d ds => rfl
  | cons s ss ih =>
    intro ds hs hd
    cases ds with
    | nil => rfl
    | cons d ds =>
      rw [pairUp]
      rw [createE_eq_createA fs s d
        (by rw [hs s (by simp), hd d (by simp)])]
      rw [ih ds (fun x hx => hs x (by simp [hx])) (fun x hx => hd x (by simp [hx]))]
      by_cases hlen : ss.length = ds.length
      · rw [if_pos hlen, if_pos (by simp [hlen])]
        rfl
      · rw [if_neg hlen, if_neg (by simp [hlen])]
        rfl

def c5fs : FS := ⟨[⟨true, ["out"]⟩], []⟩

def c5dir : FsPath := ⟨true, ["out"]⟩

def c5src : FsPath := ⟨false, ["x.eco"]⟩

/-- Claim C5, counterexample: pairing a relative source with an
absolute directory destination fails with the mixed-path error of
`os.path.commonpath`, so pairing with a directory destination does NOT
always succeed, contrary to the claim. -/
theorem c5_pairing_counterexample :
    c5fs.isDir c5dir = true
    ∧ Eco2Path.iterPairs c5fs [c5src] (DstSpec.single c5dir) =
        Except.error RunError.mixedAbsolute :=
  ⟨by decide, by decide⟩

/-- Claim C5 (amended): when all sources and destinations have the same
absoluteness, an explicit destination sequence of a different length
fails with the count-mismatch error, an omitted or directory
destination always succeeds with exactly one destination per source
paired positionally in order, and an equal-length explicit sequence
succeeds positionally. -/
theorem c5_pairing_amended (fs : FS) (src ps : List FsPath) (d0 : FsPath) (a : Bool)
    (hs : ∀ x ∈ src, x.absolute = a) (hp : ∀ x ∈ ps, x.absolute = a)
    (hd : d0.absolute = a) :
    (src.length ≠ ps.length →
      Eco2Path.iterPairs fs src (DstSpec.seq ps) = Except.error RunError.countMismatch)
    ∧ Eco2Path.iterPairs fs src DstSpec.omitted =
        Except.ok (src.map Eco2Path.createOmitted)
    ∧ (fs.isDir d0 = true →
        Eco2Path.iterPairs fs src (DstSpec.single d0) =
          Except.ok (src.map (fun s => Eco2Path.createA fs s d0)))
    ∧ (src.length = ps.length →
        Eco2Path.iterPairs fs src (DstSpec.seq ps) =
          Except.ok (List.zipWith (Eco2Path.createA fs) src ps)) := by
  refine ⟨?_, rfl, ?_, ?_⟩
  · intro hlen
    unfold Eco2Path.iterPairs
    dsimp only
    rw [pairUp_eq_abs fs a src ps hs hp, if_neg hlen]
  · intro hdir
    have hred : Eco2Path.iterPairs fs src (DstSpec.single d0) =
        if fs.isDir d0 = true then pairUp fs src (src.map (fun _ => d0))
        else pairUp fs src [d0] := rfl
    rw [hred, if_pos hdir]
    rw [pairUp_eq_abs fs a src (src.map (fun _ => d0)) hs
      (by intro x hx; rcases List.mem_map.mp hx with ⟨y, _, rfl⟩; exact hd)]
    rw [if_pos (by rw [List.length_map])]
    rw [zipWith_const]
  · intro hlen
    unfold Eco2Path.iterPairs
    dsimp only
    rw [pairUp_eq_abs fs a src ps hs hp, if_pos hlen]

theorem c5_pairing_amended_witness :
    Eco2Path.iterPairs c5fs [⟨true, ["y.eco"]⟩] DstSpec.omitted =
      Except.ok (([⟨true, ["y.eco"]⟩] : List FsPath).map Eco2Path.createOmitted) :=
  (c5_pairing_amended c5fs [⟨true, ["y.eco"]⟩] [] c5dir true
    (by decide) (by decide) (by decide)).2.1

def c6src : FsPath := ⟨true, ["0123456789", "case.xls"]⟩

/-- Claim C6, counterexample: for a source whose extension is already
`.xls` and an omitted destination, the longest common path prefix of
source and destination is the full source path (length 20 >= 10), yet
the WorkItem's root is the source's parent directory, not that common
prefix — contrary to the claim. -/
theorem c6_commonroot_counterexample :
    10 ≤ (FsPath.commonRoot c6src (Eco2Path.createOmitted c6src).dst).asPosix.length
    ∧ ((Eco2Path.createOmitted c6src).relative 10).root ≠
        some (FsPath.commonRoot c6src (Eco2Path.createOmitted c6src).dst) :=
  ⟨by decide, by decide⟩

/-- Claim C6 (amended): after the `relative` abbreviation step,
`commonRoot` is null exactly when the code-computed root's posix length
is below 10, and otherwise equals that root; with an explicit
destination the computed root is the longest common path prefix of
source and final destination, while with an omitted destination it is
the source's parent directory (which can differ from the longest common
prefix when the source extension is already `.xls`). -/
theorem c6_commonroot_amended (fs : FS) (s d0 : FsPath) (h : s.absolute = d0.absolute) :
    (∃ p, Eco2Path.createE fs s (some d0) = some p ∧
      p.root = some (FsPath.commonRoot s p.dst) ∧
      ((p.relative 10).root =
        if (FsPath.commonRoot s p.dst).asPosix.length < 10 then none
        else some (FsPath.commonRoot s p.dst)))
    ∧ ((Eco2Path.createOmitted s).root = some s.parent
       ∧ ((Eco2Path.createOmitted s).relative 10).root =
          (if s.parent.asPosix.length < 10 then none else some s.parent)) := by
  constructor
  · refine ⟨Eco2Path.createA fs s d0, createE_eq_createA fs s d0 h, rfl, ?_⟩
    unfold Eco2Path.relative Eco2Path.createA
    dsimp only
    split <;> rfl
  · refine ⟨rfl, ?_⟩
    unfold Eco2Path.relative Eco2Path.createOmitted
    dsimp only
    split <;> rfl

theorem c6_commonroot_amended_witness :
    (Eco2Path.createOmitted c6src).root = some c6src.parent
    ∧ ((Eco2Path.createOmitted c6src).relative 10).root =
        (if c6src.parent.asPosix.length < 10 then none else some c6src.parent) :=
  (c6_commonroot_amended ⟨[], []⟩ c6src c6src rfl).2

def c7fs : FS := ⟨[⟨true, ["d"]⟩], [⟨true, ["d", "A.ECO"]⟩]⟩

def c7dir : FsPath := ⟨true, ["d"]⟩

def c7file : FsPath := ⟨true, ["d", "A.ECO"]⟩

/-- Claim C7, counterexample: a file named `A.ECO`, whose suffix
`.ECO` is not equal to any member of the list `['.eco']`, IS discovered
by `_source` with that list — the comparison lowercases the file's
suffix first, so it is not the case-sensitive exact match the claim
states. -/
theorem c7_case_counterexample :
    FsPath.suffix c7file = ".ECO"
    ∧ (".ECO" : String) ∉ ([".eco"] : List String)
    ∧ sourceFiles c7fs c7dir [".eco"] = [c7file] :=
  ⟨by decide, by decide, by decide⟩

/-- Claim C7 (amended): for a directory source, discovery includes a
path exactly when it is a direct entry of the directory, is a regular
file, and its suffix LOWERCASED is a member of the caller-supplied
extension list (the file's suffix is case-folded; the list entries are
compared exactly). -/
theorem c7_case_amended (fs : FS) (d : FsPath) (exts : List String) (p : FsPath)
    (hd : fs.isDir d = true) :
    p ∈ sourceFiles fs d exts ↔
      p ∈ fs.glob1 d ∧ fs.isFile p = true ∧ lowerStr (FsPath.suffix p) ∈ exts := by
  unfold sourceFiles
  rw [hd]
  simp only [Bool.not_true, Bool.false_eq_true, if_false, List.mem_filter,
    Bool.and_eq_true, decide_eq_true_eq]

theorem c7_case_amended_witness :
    c7file ∈ sourceFiles c7fs c7dir [".eco"] ↔
      c7file ∈ c7fs.glob1 c7dir ∧ c7fs.isFile c7file = true ∧
        lowerStr (FsPath.suffix c7file) ∈ ([".eco"] : List String) :=
  c7_case_amended c7fs c7dir [".eco"] c7file (by decide)
